import Mathlib

/-!
Verification development for the kubo_python stream-mounting core and its
example program.  The repository ships only the example script
`examples/p2p_example.py`; the core library (address parsing, tunnel
registry, bindings, splicer) is specified in `spec.md` but its source is not
present, so those components are modelled from the spec.  The example
program is embedded from its source.
-/

/-- Error taxonomy of the stream-mounting core (spec section 7). -/
inductive P2PError
  | InvalidAddress
  | InvalidPeerID
  | ProtocolInUse
  | NotFound
  | BindFailed
  | DialFailed
  | StreamError
deriving DecidableEq

/-- Structured endpoint derived from a multiaddress (spec section 3):
transport is always "tcp", host a string, port a 16-bit value. -/
structure Endpoint where
  transport : String
  host : String
  port : Nat
deriving DecidableEq

/-- The character standing for the decimal digit d (d < 10). -/
def digitChar (d : Nat) : Char :=
  match d with
  | 0 => '0'
  | 1 => '1'
  | 2 => '2'
  | 3 => '3'
  | 4 => '4'
  | 5 => '5'
  | 6 => '6'
  | 7 => '7'
  | 8 => '8'
  | 9 => '9'
  | _ => '0'

/-- Numeric value of a digit character. -/
def charVal (c : Char) : Nat := c.toNat - 48

/-- Decimal rendering of a natural number as a character list (big-endian). -/
def renderNat (n : Nat) : List Char :=
  ((Nat.digits 10 n).map digitChar).reverse

/-- Value of a big-endian list of digit characters. -/
def natFromChars (l : List Char) : Nat :=
  Nat.ofDigits 10 ((l.map charVal).reverse)

/-- Modelled from the spec: port parsing inside `AddressSpec.Parse`.  A port
is a non-empty all-digit segment whose value lies in [1, 65535]. -/
def parsePort (l : List Char) : Option Nat :=
  if l ≠ [] ∧ l.all Char.isDigit then
    let n := natFromChars l
    if 1 ≤ n ∧ n ≤ 65535 then some n else none
  else none

/-- Characters allowed in a host segment (IPv4 or hostname syntax). -/
def isHostChar (c : Char) : Bool :=
  c.isAlphanum || c == '.' || c == '-'

/-- Modelled from the spec: host validation inside `AddressSpec.Parse`.
A host is non-empty and made of hostname characters. -/
def validHostL (l : List Char) : Bool :=
  !l.isEmpty && l.all isHostChar

/-- Split a character list on the slash character, keeping empty segments
(the semantics of splitting on "/"). -/
def splitSlash : List Char → List (List Char)
  | [] => [[]]
  | c :: cs =>
    if c = '/' then [] :: splitSlash cs
    else
      match splitSlash cs with
      | [] => [[c]]
      | t :: ts => (c :: t) :: ts

/-- Rejoin segments with slashes (left inverse of `splitSlash`). -/
def joinSlash : List (List Char) → List Char
  | [] => []
  | [s] => s
  | s :: rest => s ++ '/' :: joinSlash rest

/-- Modelled from the spec: `AddressSpec.Parse` on a character list.  The
source of the AddressSpec component is not in the repository; this follows
spec section 4.1: accept exactly the grammar `/ip4/<host>/tcp/<port>`, fail
with `InvalidAddress` on any other shape, on a non-numeric or out-of-range
port, or on an empty host.  Pure function. -/
def parseChars (l : List Char) : Except P2PError Endpoint :=
  match splitSlash l with
  | [e, i, host, t, portStr] =>
    if e = [] ∧ i = ['i', 'p', '4'] ∧ t = ['t', 'c', 'p'] ∧ validHostL host then
      match parsePort portStr with
      | some p => .ok ⟨"tcp", ⟨host⟩, p⟩
      | none => .error .InvalidAddress
    else .error .InvalidAddress
  | _ => .error .InvalidAddress

/-- Modelled from the spec: `AddressSpec.Parse` on a string. -/
def parseAddr (s : String) : Except P2PError Endpoint :=
  parseChars s.data

/-- Host validation on strings. -/
def validHost (s : String) : Bool := validHostL s.data

example : parseAddr "/ip4/127.0.0.1/tcp/8765" =
    .ok ⟨"tcp", "127.0.0.1", 8765⟩ := rfl

example : parseAddr "/ip4/127.0.0.1/tcp/0" = .error .InvalidAddress := rfl

example : parseAddr "/ip4//tcp/80" = .error .InvalidAddress := rfl

example : parseAddr "/ip4/h/tcp/70000" = .error .InvalidAddress := rfl

example : parseAddr "/ip6/h/tcp/80" = .error .InvalidAddress := rfl

example : parseAddr "/ip4/h/tcp/80/x" = .error .InvalidAddress := rfl

/-- One live spliced session's metadata (spec section 3, Session / StreamInfo). -/
structure SessionInfo where
  originAddress : Endpoint
  targetAddress : Endpoint
deriving DecidableEq

/-- Role of a binding (spec section 3: sum type Listen | Forward). -/
inductive BindingRole
  | listen
  | forward
deriving DecidableEq

/-- Modelled from the spec: a registered binding (spec section 3): its role,
the parsed local endpoint, the peer target for forward bindings, and its
active sessions. -/
structure Binding where
  role : BindingRole
  targetAddress : Endpoint
  peer : Option String
  sessions : List SessionInfo
deriving DecidableEq

/-- Modelled from the spec: the `TunnelRegistry` state, a table of active
bindings keyed by protocol name (unique keys). -/
structure Registry where
  bindings : List (String × Binding)
deriving DecidableEq

/-- Look up the binding registered under a protocol. -/
def Registry.lookup (r : Registry) (p : String) : Option Binding :=
  (r.bindings.find? (fun pb => pb.1 == p)).map (fun pb => pb.2)

/-- Ports on which an OS-level TCP listener is currently bound (one per
listen-role binding). -/
def Registry.portsBound (r : Registry) : List Nat :=
  r.bindings.filterMap fun pb =>
    if pb.2.role = BindingRole.listen then some pb.2.targetAddress.port else none

/-- Modelled from the spec: `TunnelRegistry.Listen` (spec section 4.2): fails
with `ProtocolInUse` if the protocol already has a binding, `InvalidAddress`
if the address does not parse, `BindFailed` if the OS cannot bind the port;
on success inserts a started ListenBinding.  On failure the registry is
returned unchanged (no partial binding). -/
def Registry.listen (r : Registry) (proto addr : String) : Registry × Option P2PError :=
  if (r.lookup proto).isSome then (r, some .ProtocolInUse)
  else
    match parseAddr addr with
    | .error _ => (r, some .InvalidAddress)
    | .ok ep =>
      if ep.port ∈ r.portsBound then (r, some .BindFailed)
      else (⟨r.bindings ++ [(proto, ⟨.listen, ep, none, []⟩)]⟩, none)

/-- Modelled from the spec: peer-identifier validation (a malformed peer id
is rejected with `InvalidPeerID`; modelled as non-emptiness). -/
def validPeerID (s : String) : Bool := s != ""

/-- Modelled from the spec: `TunnelRegistry.Forward` (spec section 4.2):
fails with `ProtocolInUse`, `InvalidAddress` or `InvalidPeerID`; on success
registers a ForwardBinding handling inbound overlay streams for the
protocol.  On failure the registry is returned unchanged. -/
def Registry.forward (r : Registry) (proto addr peerID : String) : Registry × Option P2PError :=
  if (r.lookup proto).isSome then (r, some .ProtocolInUse)
  else
    match parseAddr addr with
    | .error _ => (r, some .InvalidAddress)
    | .ok ep =>
      if validPeerID peerID then
        (⟨r.bindings ++ [(proto, ⟨.forward, ep, some peerID, []⟩)]⟩, none)
      else (r, some .InvalidPeerID)

/-- Metadata describing a server-role binding (spec section 3). -/
structure ListenerInfo where
  protocol : String
  targetAddress : Endpoint
deriving DecidableEq

/-- Metadata describing one active spliced session (spec section 3). -/
structure StreamInfo where
  protocol : String
  originAddress : Endpoint
  targetAddress : Endpoint
deriving DecidableEq

/-- Modelled from the spec: `TunnelRegistry.List` / `ListActive`: a snapshot
of all bindings projected to ListenerInfo shape and of all live sessions
across all bindings. -/
def Registry.listActive (r : Registry) : List ListenerInfo × List StreamInfo :=
  (r.bindings.map fun pb => ⟨pb.1, pb.2.targetAddress⟩,
   r.bindings.flatMap fun pb =>
     pb.2.sessions.map fun s => ⟨pb.1, s.originAddress, s.targetAddress⟩)

/-- Modelled from the spec: `TunnelRegistry.Close` (spec section 4.2): fails
with `NotFound` if no binding exists (no side effects); otherwise removes the
entry, terminating its sessions and releasing its OS listener or handler
registration with it. -/
def Registry.close (r : Registry) (proto : String) : Registry × Option P2PError :=
  match r.lookup proto with
  | none => (r, some .NotFound)
  | some _ => (⟨r.bindings.filter fun pb => pb.1 != proto⟩, none)

/-- Modelled from the spec: `TunnelRegistry.CloseAll`: closes every
remaining binding in turn. -/
def Registry.closeAll (r : Registry) : Registry :=
  (r.bindings.map Prod.fst).foldl (fun s p => (s.close p).1) r

/-- Record a freshly spawned session under the protocol's binding. -/
def Registry.addSession (r : Registry) (proto : String) (s : SessionInfo) : Registry :=
  ⟨r.bindings.map fun pb =>
    if pb.1 = proto then (pb.1, { pb.2 with sessions := pb.2.sessions ++ [s] }) else pb⟩

/-- Erase one session from a binding's active set. -/
def eraseSession (s : SessionInfo) (b : Binding) : Binding :=
  { b with sessions := b.sessions.erase s }

/-- Remove a terminated session from the owning binding's active set. -/
def Registry.removeSession (r : Registry) (proto : String) (s : SessionInfo) : Registry :=
  ⟨r.bindings.map fun pb =>
    if pb.1 = proto then (pb.1, eraseSession s pb.2) else pb⟩

/-- Outcome of the overlay dial performed for one accepted TCP connection. -/
inductive DialOutcome
  | opened (remote : Endpoint)
  | failed
deriving DecidableEq

/-- Result of one accept-loop iteration: the registry afterwards, whether the
loop keeps running, whether the accepted TCP connection was closed without a
session, and the error surfaced to the original Listen caller, if any. -/
structure AcceptStep where
  registry : Registry
  loopContinues : Bool
  tcpConnClosed : Bool
  surfaced : Option P2PError
deriving DecidableEq

/-- Modelled from the spec: one iteration of a ListenBinding's accept loop in
the Accepting state (spec section 4.3): on overlay-dial success spawn a
Splicer session recorded under the binding; on overlay-dial failure close the
TCP connection and continue the loop without aborting the binding; the
per-connection error is handled locally, never surfaced to the Listen
caller. -/
def handleAccept (r : Registry) (proto : String) (origin : Endpoint)
    (d : DialOutcome) : AcceptStep :=
  match r.lookup proto with
  | none => ⟨r, false, true, none⟩
  | some _ =>
    match d with
    | .opened remote => ⟨r.addSession proto ⟨origin, remote⟩, true, false, none⟩
    | .failed => ⟨r, true, true, none⟩

/-- State of one copy direction inside a Splicer: bytes read from the source
but not yet written, bytes already delivered to the destination, and whether
the destination side has been closed for writing (half-close). -/
structure DirState where
  pending : List Nat
  delivered : List Nat
  dstShut : Bool
deriving DecidableEq

/-- Modelled from the spec: state of one Splicer session over two duplex
streams A and B (spec section 4.5): the two copy directions and whether each
underlying stream has been fully closed. -/
structure SplicerState where
  ab : DirState
  ba : DirState
  aClosed : Bool
  bClosed : Bool
deriving DecidableEq

/-- Events a Splicer session can undergo: progress of either copy direction,
end-of-stream on either source, an I/O error on either direction, or
cancellation by the owning binding. -/
inductive SpliceEvent
  | copyAB
  | copyBA
  | eofAB
  | eofBA
  | errAB
  | errBA
  | cancel
deriving DecidableEq

/-- One byte of progress for a single copy direction, if possible. -/
def dirStep (d : DirState) : Option DirState :=
  match d.pending with
  | [] => none
  | x :: rest => if d.dstShut then none else some ⟨rest, d.delivered ++ [x], d.dstShut⟩

/-- Modelled from the spec: small-step interleaving semantics of a Splicer
(spec section 4.5).  Either direction may make progress while the session is
live; end-of-stream on one direction closes that direction's destination for
writing while the opposite direction continues; an I/O error on either
direction, or cancellation, closes both underlying streams.  `none` means
the event is not enabled in the given state. -/
def spliceStep (s : SplicerState) (e : SpliceEvent) : Option SplicerState :=
  if s.aClosed || s.bClosed then none
  else
    match e with
    | .copyAB => (dirStep s.ab).map fun d => { s with ab := d }
    | .copyBA => (dirStep s.ba).map fun d => { s with ba := d }
    | .eofAB =>
      if s.ab.pending = [] ∧ s.ab.dstShut = false then
        some { s with ab := { s.ab with dstShut := true } }
      else none
    | .eofBA =>
      if s.ba.pending = [] ∧ s.ba.dstShut = false then
        some { s with ba := { s.ba with dstShut := true } }
      else none
    | .errAB => some { s with aClosed := true, bClosed := true }
    | .errBA => some { s with aClosed := true, bClosed := true }
    | .cancel => some { s with aClosed := true, bClosed := true }

/-- Command-line arguments of `examples/p2p_example.py` after argparse:
the two mode flags, the protocol name (default "demo"), the port (default
8765) and the optional peer id. -/
structure Args where
  listen : Bool
  forward : Bool
  protocol : String
  port : Nat
  peerId : Option String
deriving DecidableEq

/-- Externally observable actions of the example program (console output is
elided): node creation, the P2P library calls, and the cleanup calls. -/
inductive Event
  | nodeCreated
  | p2pListen (proto addr : String)
  | p2pForward (proto addr peer : String)
  | listListeners
  | p2pClose (proto : String)
  | nodeClosed
deriving DecidableEq

/-- How the process terminates: normal return, `sys.exit(n)`, or an uncaught
exception propagating out of `main`. -/
inductive ExitStatus
  | normal
  | code (n : Nat)
  | exc
deriving DecidableEq

/-- How the try-block body of `main` ends when no exception escapes it:
normal completion (including a KeyboardInterrupt caught by the inner
handler around the sleep loop) or a `sys.exit` raised inside it. -/
inductive BodyResult
  | normal
  | sysExit (n : Nat)
deriving DecidableEq

/-- Behaviour of the external collaborators during one run: the boolean
results of `p2p.listen` and `p2p.forward`, and, when `raisePoint = some k`,
an exception thrown inside the try block after its first k recorded events.
The node and p2p constructors are taken to succeed. -/
structure Env where
  listenResult : Bool
  forwardResult : Bool
  raisePoint : Option Nat
deriving DecidableEq

/-- The address string built by the f-strings at lines 68 and 98 of
`examples/p2p_example.py`. -/
def mkAddr (port : Nat) : String := "/ip4/127.0.0.1/tcp/" ++ ⟨renderNat port⟩

/-- The try-block body of `main` (lines 62-122 of
`examples/p2p_example.py`), recording its events and how it ends when no
exception escapes: in listen mode call `p2p.listen`; on a falsy result call
`sys.exit(1)`, otherwise list the active connections and sleep until
interrupted; forward mode is symmetric with `p2p.forward`. -/
def tryBody (a : Args) (env : Env) : List Event × BodyResult :=
  if a.listen then
    if env.listenResult then
      ([.p2pListen a.protocol (mkAddr a.port), .listListeners], .normal)
    else ([.p2pListen a.protocol (mkAddr a.port)], .sysExit 1)
  else if a.forward then
    if env.forwardResult then
      ([.p2pForward a.protocol (mkAddr a.port) (a.peerId.getD ""), .listListeners], .normal)
    else ([.p2pForward a.protocol (mkAddr a.port) (a.peerId.getD "")], .sysExit 1)
  else ([], .normal)

/-- The finally block of `main` (lines 124-131): close the P2P binding when
a mode flag was given, then always close the node. -/
def finallyEvents (a : Args) : List Event :=
  (if a.listen || a.forward then [Event.p2pClose a.protocol] else []) ++ [Event.nodeClosed]

/-- `main` of `examples/p2p_example.py` (lines 25-131): validate the
arguments (exiting with status 1 before creating the node when `--forward`
lacks a truthy `--peer-id`, or when neither mode flag is given), create the
node, run the try body — possibly cut short by an exception after
`env.raisePoint` events — and always run the finally block on the way out;
a `sys.exit(1)` from the body and an escaping exception both pass through
the finally block. -/
def runMain (a : Args) (env : Env) : List Event × ExitStatus :=
  if a.forward && (a.peerId.getD "" == "") then ([], .code 1)
  else if !a.listen && !a.forward then ([], .code 1)
  else
    let body := tryBody a env
    match env.raisePoint with
    | some k => (Event.nodeCreated :: (body.1.take k ++ finallyEvents a), .exc)
    | none =>
      (Event.nodeCreated :: (body.1 ++ finallyEvents a),
       match body.2 with
       | .normal => .normal
       | .sysExit n => .code n)

/-- A fixed endpoint used to instantiate theorems at concrete inputs. -/
def demoEndpoint : Endpoint := ⟨"tcp", "127.0.0.1", 8765⟩

/-- A fixed listen-role binding with no sessions. -/
def demoBinding : Binding := ⟨.listen, demoEndpoint, none, []⟩

/-- A registry holding the single binding `demoBinding` under "demo". -/
def demoRegistry : Registry := ⟨[("demo", demoBinding)]⟩

/-- A fixed session. -/
def sessA : SessionInfo := ⟨⟨"tcp", "1.1.1.1", 1000⟩, ⟨"tcp", "2.2.2.2", 2000⟩⟩

/-- A second fixed session. -/
def sessB : SessionInfo := ⟨⟨"tcp", "3.3.3.3", 3000⟩, ⟨"tcp", "4.4.4.4", 4000⟩⟩

/-- A listen-role binding with two live sessions. -/
def busyBinding : Binding := ⟨.listen, demoEndpoint, none, [sessA, sessB]⟩

/-- A registry with a busy binding and an idle one, on distinct ports. -/
def busyRegistry : Registry :=
  ⟨[("demo", busyBinding), ("other", ⟨.forward, ⟨"tcp", "10.0.0.1", 9100⟩, some "QmX", []⟩)]⟩

/-- A splicer state with bytes pending in both directions. -/
def demoSplicer : SplicerState :=
  ⟨⟨[1, 2], [], false⟩, ⟨[3], [], false⟩, false, false⟩

theorem digitChar_isDigit (d : Nat) (hd : d < 10) : (digitChar d).isDigit = true := by
  interval_cases d <;> rfl

theorem charVal_digitChar (d : Nat) (hd : d < 10) : charVal (digitChar d) = d := by
  interval_cases d <;> rfl

theorem isDigit_ne_slash (c : Char) (h : c.isDigit = true) : c ≠ '/' := by
  intro he
  subst he
  exact absurd h (by decide)

theorem isHostChar_ne_slash (c : Char) (h : isHostChar c = true) : c ≠ '/' := by
  intro he
  subst he
  exact absurd h (by decide)

theorem renderNat_ne_nil (P : Nat) (h : 1 ≤ P) : renderNat P ≠ [] := by
  unfold renderNat
  simp only [ne_eq, List.reverse_eq_nil_iff, List.map_eq_nil_iff]
  exact Nat.digits_ne_nil_iff_ne_zero.mpr (Nat.one_le_iff_ne_zero.mp h)

theorem renderNat_all_digits (P : Nat) : (renderNat P).all Char.isDigit = true := by
  rw [List.all_eq_true]
  intro c hc
  rw [renderNat, List.mem_reverse, List.mem_map] at hc
  obtain ⟨d, hd, rfl⟩ := hc
  exact digitChar_isDigit d (Nat.digits_lt_base (by norm_num) hd)

theorem slash_not_mem_renderNat (P : Nat) : '/' ∉ renderNat P := by
  intro hmem
  have := List.all_eq_true.mp (renderNat_all_digits P) _ hmem
  exact isDigit_ne_slash '/' this rfl

theorem natFromChars_renderNat (P : Nat) : natFromChars (renderNat P) = P := by
  unfold natFromChars renderNat
  rw [List.map_reverse, List.reverse_reverse, List.map_map]
  have hmap : (Nat.digits 10 P).map (charVal ∘ digitChar) = (Nat.digits 10 P).map id := by
    apply List.map_congr_left
    intro d hd
    exact charVal_digitChar d (Nat.digits_lt_base (by norm_num) hd)
  rw [hmap, List.map_id]
  exact Nat.ofDigits_digits 10 P

theorem parsePort_renderNat (P : Nat) (h1 : 1 ≤ P) (h2 : P ≤ 65535) :
    parsePort (renderNat P) = some P := by
  unfold parsePort
  rw [if_pos ⟨renderNat_ne_nil P h1, renderNat_all_digits P⟩]
  simp only [natFromChars_renderNat]
  rw [if_pos ⟨h1, h2⟩]

theorem parsePort_sound (l : List Char) (n : Nat) (h : parsePort l = some n) :
    l ≠ [] ∧ l.all Char.isDigit = true ∧ natFromChars l = n ∧ 1 ≤ n ∧ n ≤ 65535 := by
  unfold parsePort at h
  split at h
  · next hc =>
    dsimp only at h
    split at h
    · next hb =>
      injection h with h
      exact ⟨hc.1, hc.2, h, h ▸ hb.1, h ▸ hb.2⟩
    · cases h
  · cases h

theorem splitSlash_ne_nil (l : List Char) : splitSlash l ≠ [] := by
  induction l with
  | nil => simp [splitSlash]
  | cons c cs ih =>
    by_cases hc : c = '/'
    · simp [splitSlash, hc]
    · rcases h : splitSlash cs with _ | ⟨t, ts⟩
      · exact absurd h ih
      · simp [splitSlash, hc, h]

theorem splitSlash_no_slash (l : List Char) (h : '/' ∉ l) : splitSlash l = [l] := by
  induction l with
  | nil => rfl
  | cons c cs ih =>
    have hc : c ≠ '/' := fun he => h (he ▸ List.mem_cons_self c cs)
    have hcs : '/' ∉ cs := fun hm => h (List.mem_cons_of_mem c hm)
    rw [splitSlash, if_neg hc, ih hcs]

theorem splitSlash_append (l1 l2 : List Char) (h : '/' ∉ l1) :
    splitSlash (l1 ++ '/' :: l2) = l1 :: splitSlash l2 := by
  induction l1 with
  | nil => simp [splitSlash]
  | cons c cs ih =>
    have hc : c ≠ '/' := fun he => h (he ▸ List.mem_cons_self c cs)
    have hcs : '/' ∉ cs := fun hm => h (List.mem_cons_of_mem c hm)
    rw [List.cons_append, splitSlash, if_neg hc, ih hcs]

theorem joinSlash_cons (s : List Char) (rest : List (List Char)) (h : rest ≠ []) :
    joinSlash (s :: rest) = s ++ '/' :: joinSlash rest := by
  rcases rest with _ | ⟨t, ts⟩
  · exact absurd rfl h
  · rfl

theorem joinSlash_splitSlash (l : List Char) : joinSlash (splitSlash l) = l := by
  induction l with
  | nil => rfl
  | cons c cs ih =>
    by_cases hc : c = '/'
    · subst hc
      rw [show splitSlash ('/' :: cs) = [] :: splitSlash cs from by rw [splitSlash, if_pos rfl]]
      rw [joinSlash_cons [] _ (splitSlash_ne_nil cs), List.nil_append, ih]
    · rcases h : splitSlash cs with _ | ⟨t, ts⟩
      · exact absurd h (splitSlash_ne_nil cs)
      · rw [show splitSlash (c :: cs) = (c :: t) :: ts from by rw [splitSlash, if_neg hc, h]]
        rcases ts with _ | ⟨u, us⟩
        · rw [h] at ih
          show c :: t = c :: cs
          rw [show joinSlash [t] = t from rfl] at ih
          rw [ih]
        · rw [h] at ih
          rw [joinSlash_cons t (u :: us) (by simp)] at ih
          rw [joinSlash_cons (c :: t) (u :: us) (by simp), List.cons_append, ih]

theorem validHostL_no_slash (l : List Char) (h : validHostL l = true) : '/' ∉ l := by
  intro hm
  unfold validHostL at h
  rw [Bool.and_eq_true, List.all_eq_true] at h
  exact isHostChar_ne_slash '/' (h.2 _ hm) rfl

theorem parseChars_of_splitSlash (l host pstr : List Char) (n : Nat)
    (hs : splitSlash l = [[], ['i', 'p', '4'], host, ['t', 'c', 'p'], pstr])
    (hh : validHostL host = true) (hp : parsePort pstr = some n) :
    parseChars l = .ok ⟨"tcp", ⟨host⟩, n⟩ := by
  unfold parseChars
  rw [hs]
  dsimp only
  rw [if_pos ⟨rfl, rfl, rfl, hh⟩, hp]

theorem parseChars_error (l : List Char) (e : P2PError)
    (h : parseChars l = .error e) : e = P2PError.InvalidAddress := by
  unfold parseChars at h
  split at h
  · split at h
    · split at h
      · exact Except.noConfusion h
      · injection h with h
        exact h.symm
    · injection h with h
      exact h.symm
  · injection h with h
    exact h.symm

theorem parseChars_sound (l : List Char) (ep : Endpoint)
    (h : parseChars l = .ok ep) :
    ep.transport = "tcp" ∧ validHost ep.host = true ∧ 1 ≤ ep.port ∧ ep.port ≤ 65535 ∧
    ∃ pstr : List Char, pstr ≠ [] ∧ pstr.all Char.isDigit = true ∧
      natFromChars pstr = ep.port ∧
      l = "/ip4/".data ++ ep.host.data ++ "/tcp/".data ++ pstr := by
  unfold parseChars at h
  split at h
  · rename_i e i host t pstr heq
    split at h
    · rename_i hcond
      obtain ⟨he, hi, ht, hv⟩ := hcond
      split at h
      · rename_i n hpp
        injection h with h
        subst h
        subst he hi ht
        have hshape : l = "/ip4/".data ++ host ++ "/tcp/".data ++ pstr := by
          have hl : l = joinSlash (splitSlash l) := (joinSlash_splitSlash l).symm
          rw [heq] at hl
          rw [hl]
          simp [joinSlash, List.append_assoc]
        obtain ⟨hne, hdig, hval, hb1, hb2⟩ := parsePort_sound pstr n hpp
        exact ⟨rfl, hv, hb1, hb2, pstr, hne, hdig, hval, hshape⟩
      · exact Except.noConfusion h
    · exact Except.noConfusion h
  · exact Except.noConfusion h

/-- C2: for every string of the form `/ip4/H/tcp/P` with H a valid host and
P in [1, 65535], Parse succeeds and round-trips the host and port exactly;
every failure of Parse is `InvalidAddress`; and Parse succeeds only on
strings of exactly that shape, so every malformed input fails with
`InvalidAddress`.  Parse is a pure Lean function, hence side-effect free. -/
theorem parse_roundtrip_and_errors (host : String) (P : Nat)
    (hh : validHost host = true) (h1 : 1 ≤ P) (h2 : P ≤ 65535) :
    parseAddr ("/ip4/" ++ host ++ "/tcp/" ++ ⟨renderNat P⟩) = .ok ⟨"tcp", host, P⟩ ∧
    (∀ s e, parseAddr s = .error e → e = P2PError.InvalidAddress) ∧
    (∀ s ep, parseAddr s = .ok ep →
      ep.transport = "tcp" ∧ validHost ep.host = true ∧ 1 ≤ ep.port ∧ ep.port ≤ 65535 ∧
      ∃ pstr : List Char, pstr ≠ [] ∧ pstr.all Char.isDigit = true ∧
        natFromChars pstr = ep.port ∧ s = "/ip4/" ++ ep.host ++ "/tcp/" ++ ⟨pstr⟩) := by
  refine ⟨?_, ?_, ?_⟩
  · have hslash : '/' ∉ host.data := validHostL_no_slash host.data hh
    have hsplit : splitSlash (("/ip4/" ++ host ++ "/tcp/" ++ (⟨renderNat P⟩ : String)).data)
        = [[], ['i', 'p', '4'], host.data, ['t', 'c', 'p'], renderNat P] := by
      show splitSlash (("/ip4/".data ++ host.data ++ "/tcp/".data) ++ renderNat P) = _
      rw [List.append_assoc, List.append_assoc]
      show splitSlash ([] ++ '/' ::
        (['i', 'p', '4'] ++ '/' ::
          (host.data ++ '/' :: (['t', 'c', 'p'] ++ '/' :: renderNat P)))) = _
      rw [splitSlash_append [] _ (by simp)]
      rw [splitSlash_append ['i', 'p', '4'] _ (by decide)]
      rw [splitSlash_append host.data _ hslash]
      rw [splitSlash_append ['t', 'c', 'p'] _ (by decide)]
      rw [splitSlash_no_slash (renderNat P) (slash_not_mem_renderNat P)]
    exact parseChars_of_splitSlash _ host.data (renderNat P) P hsplit hh
      (parsePort_renderNat P h1 h2)
  · intro s e h
    exact parseChars_error s.data e h
  · intro s ep h
    obtain ⟨ht, hv, hp1, hp2, pstr, hne, hdig, hval, hshape⟩ := parseChars_sound s.data ep h
    exact ⟨ht, hv, hp1, hp2, pstr, hne, hdig, hval, String.ext hshape⟩

/-- Witness for C2 at host "127.0.0.1" and port 8765. -/
theorem parse_roundtrip_and_errors_witness :
    parseAddr ("/ip4/" ++ "127.0.0.1" ++ "/tcp/" ++ ⟨renderNat 8765⟩) =
      .ok ⟨"tcp", "127.0.0.1", 8765⟩ :=
  (parse_roundtrip_and_errors "127.0.0.1" 8765 (by decide) (by decide) (by decide)).1

theorem lookup_eq_none_iff (r : Registry) (p : String) :
    r.lookup p = none ↔ ∀ pb ∈ r.bindings, pb.1 ≠ p := by
  unfold Registry.lookup
  rw [Option.map_eq_none', List.find?_eq_none]
  simp

/-- C1: if a binding for protocol p already exists, a second Listen and a
second Forward for p both fail with `ProtocolInUse`, the registry is
returned unchanged (no partial binding added or replaced), and the first
binding for p is still registered untouched. -/
theorem duplicate_protocol_rejected (r : Registry) (p : String) (b : Binding)
    (h : r.lookup p = some b) (addr peerID : String) :
    r.listen p addr = (r, some P2PError.ProtocolInUse) ∧
    r.forward p addr peerID = (r, some P2PError.ProtocolInUse) ∧
    (r.listen p addr).1.lookup p = some b ∧
    (r.forward p addr peerID).1.lookup p = some b := by
  have hs : (r.lookup p).isSome = true := by rw [h]; rfl
  refine ⟨?_, ?_, ?_, ?_⟩ <;>
    simp [Registry.listen, Registry.forward, hs, h]

/-- Witness for C1 at a one-binding registry. -/
theorem duplicate_protocol_rejected_witness :
    demoRegistry.listen "demo" "/ip4/10.0.0.1/tcp/9000" =
      (demoRegistry, some P2PError.ProtocolInUse) ∧
    demoRegistry.forward "demo" "/ip4/10.0.0.1/tcp/9000" "QmPeer" =
      (demoRegistry, some P2PError.ProtocolInUse) ∧
    (demoRegistry.listen "demo" "/ip4/10.0.0.1/tcp/9000").1.lookup "demo" =
      some demoBinding ∧
    (demoRegistry.forward "demo" "/ip4/10.0.0.1/tcp/9000" "QmPeer").1.lookup "demo" =
      some demoBinding :=
  duplicate_protocol_rejected demoRegistry "demo" demoBinding rfl
    "/ip4/10.0.0.1/tcp/9000" "QmPeer"

/-- C5: Close on a protocol with no binding fails with `NotFound` and the
registry state is unchanged. -/
theorem close_unknown_notFound (r : Registry) (p : String) (h : r.lookup p = none) :
    r.close p = (r, some P2PError.NotFound) := by
  unfold Registry.close
  rw [h]

/-- Witness for C5 at the empty registry. -/
theorem close_unknown_notFound_witness :
    Registry.close ⟨[]⟩ "demo" = (⟨[]⟩, some P2PError.NotFound) :=
  close_unknown_notFound ⟨[]⟩ "demo" rfl

/-- C7: while a binding for p is registered, an overlay-dial failure for one
accepted TCP connection closes only that TCP connection; the accept loop
continues, no error is surfaced to the Listen caller, and the registry entry
for p is unchanged. -/
theorem accept_dial_failure_continues (r : Registry) (p : String) (b : Binding)
    (h : r.lookup p = some b) (origin : Endpoint) :
    handleAccept r p origin DialOutcome.failed = ⟨r, true, true, none⟩ ∧
    (handleAccept r p origin DialOutcome.failed).registry.lookup p = some b := by
  unfold handleAccept
  rw [h]
  exact ⟨rfl, h⟩

/-- Witness for C7 at a one-binding registry. -/
theorem accept_dial_failure_continues_witness :
    handleAccept demoRegistry "demo" demoEndpoint DialOutcome.failed =
      ⟨demoRegistry, true, true, none⟩ ∧
    (handleAccept demoRegistry "demo" demoEndpoint
      DialOutcome.failed).registry.lookup "demo" = some demoBinding :=
  accept_dial_failure_continues demoRegistry "demo" demoBinding rfl demoEndpoint

/-- C3: after a successful `Listen("demo", "/ip4/127.0.0.1/tcp/8765")` on a
registry with no binding for "demo", the listener snapshot holds exactly one
ListenerInfo for protocol "demo" with the given target address, the stream
snapshot holds no entry for "demo", and on an initially empty registry the
whole snapshot is exactly that one listener and no streams. -/
theorem listen_demo_registers_one (r r2 : Registry)
    (h : r.listen "demo" "/ip4/127.0.0.1/tcp/8765" = (r2, none)) :
    (r2.listActive.1.filter fun li => li.protocol == "demo") =
      [⟨"demo", ⟨"tcp", "127.0.0.1", 8765⟩⟩] ∧
    (r2.listActive.2.filter fun si => si.protocol == "demo") = [] ∧
    (r.bindings = [] →
      r2.listActive = ([⟨"demo", ⟨"tcp", "127.0.0.1", 8765⟩⟩], [])) := by
  unfold Registry.listen at h
  split at h
  · exact absurd (congrArg Prod.snd h) (by simp)
  · rename_i hl
    have hpc : parseAddr "/ip4/127.0.0.1/tcp/8765" =
        Except.ok ⟨"tcp", "127.0.0.1", 8765⟩ := rfl
    split at h
    · rename_i e herr
      rw [hpc] at herr
      exact Except.noConfusion herr
    · rename_i ep hep
      rw [hpc] at hep
      injection hep with hep
      subst hep
      split at h
      · exact absurd (congrArg Prod.snd h) (by simp)
      · have hr2 : r2 = ⟨r.bindings ++ [("demo", ⟨.listen, ⟨"tcp", "127.0.0.1", 8765⟩, none, []⟩)]⟩ :=
          (congrArg Prod.fst h).symm
        subst hr2
        have hnone : r.lookup "demo" = none := Option.not_isSome_iff_eq_none.mp hl
        have hkeys : ∀ pb ∈ r.bindings, pb.1 ≠ "demo" :=
          (lookup_eq_none_iff r "demo").mp hnone
        refine ⟨?_, ?_, ?_⟩
        · show ((r.bindings ++ _).map fun pb =>
            (⟨pb.1, pb.2.targetAddress⟩ : ListenerInfo)).filter
              (fun li => li.protocol == "demo") = _
          rw [List.map_append, List.filter_append]
          have h1 : ((r.bindings.map fun pb =>
              (⟨pb.1, pb.2.targetAddress⟩ : ListenerInfo)).filter
                (fun li => li.protocol == "demo")) = [] := by
            rw [List.filter_eq_nil_iff]
            intro li hli
            rw [List.mem_map] at hli
            obtain ⟨pb, hpb, rfl⟩ := hli
            simpa using hkeys pb hpb
          rw [h1]
          rfl
        · show ((r.bindings ++ _).flatMap fun pb =>
            pb.2.sessions.map fun s =>
              (⟨pb.1, s.originAddress, s.targetAddress⟩ : StreamInfo)).filter
                (fun si => si.protocol == "demo") = _
          rw [List.flatMap_append, List.filter_append]
          have h2 : ((r.bindings.flatMap fun pb =>
              pb.2.sessions.map fun s =>
                (⟨pb.1, s.originAddress, s.targetAddress⟩ : StreamInfo)).filter
                  (fun si => si.protocol == "demo")) = [] := by
            rw [List.filter_eq_nil_iff]
            intro si hsi
            rw [List.mem_flatMap] at hsi
            obtain ⟨pb, hpb, hsi⟩ := hsi
            rw [List.mem_map] at hsi
            obtain ⟨s, hs, rfl⟩ := hsi
            simpa using hkeys pb hpb
          rw [h2]
          rfl
        · intro hemp
          simp [Registry.listActive, hemp]

/-- Witness for C3 starting from the empty registry. -/
theorem listen_demo_registers_one_witness :
    (demoRegistry.listActive.1.filter fun li => li.protocol == "demo") =
      [⟨"demo", ⟨"tcp", "127.0.0.1", 8765⟩⟩] ∧
    (demoRegistry.listActive.2.filter fun si => si.protocol == "demo") = [] ∧
    ((⟨[]⟩ : Registry).bindings = [] →
      demoRegistry.listActive = ([⟨"demo", ⟨"tcp", "127.0.0.1", 8765⟩⟩], [])) :=
  listen_demo_registers_one ⟨[]⟩ demoRegistry rfl

/-- C4: closing a registered protocol succeeds; afterwards the snapshot lists
neither its binding nor any of its former sessions, and the port its OS
listener occupied is no longer bound (a fresh TCP connection attempt is
refused), so no activity for the protocol remains. -/
theorem close_removes_binding (r : Registry) (p : String) (b : Binding)
    (h : r.lookup p = some b)
    (hport : ∀ pb ∈ r.bindings, pb.1 ≠ p → pb.2.role = BindingRole.listen →
      pb.2.targetAddress.port ≠ b.targetAddress.port) :
    (r.close p).2 = none ∧
    ((r.close p).1.listActive.1.filter fun li => li.protocol == p) = [] ∧
    ((r.close p).1.listActive.2.filter fun si => si.protocol == p) = [] ∧
    b.targetAddress.port ∉ (r.close p).1.portsBound := by
  have hc : r.close p = (⟨r.bindings.filter fun pb => pb.1 != p⟩, none) := by
    unfold Registry.close
    rw [h]
  rw [hc]
  have hmem : ∀ pb ∈ r.bindings.filter (fun pb => pb.1 != p), pb.1 ≠ p := by
    intro pb hm
    exact bne_iff_ne.mp (List.mem_filter.mp hm).2
  refine ⟨rfl, ?_, ?_, ?_⟩
  · show ((r.bindings.filter fun pb => pb.1 != p).map fun pb =>
      (⟨pb.1, pb.2.targetAddress⟩ : ListenerInfo)).filter
        (fun li => li.protocol == p) = []
    rw [List.filter_eq_nil_iff]
    intro li hli
    rw [List.mem_map] at hli
    obtain ⟨pb, hpb, rfl⟩ := hli
    simpa using hmem pb hpb
  · show ((r.bindings.filter fun pb => pb.1 != p).flatMap fun pb =>
      pb.2.sessions.map fun s =>
        (⟨pb.1, s.originAddress, s.targetAddress⟩ : StreamInfo)).filter
          (fun si => si.protocol == p) = []
    rw [List.filter_eq_nil_iff]
    intro si hsi
    rw [List.mem_flatMap] at hsi
    obtain ⟨pb, hpb, hsi⟩ := hsi
    rw [List.mem_map] at hsi
    obtain ⟨s, hs, rfl⟩ := hsi
    simpa using hmem pb hpb
  · intro hin
    unfold Registry.portsBound at hin
    rw [List.mem_filterMap] at hin
    obtain ⟨pb, hpb, hval⟩ := hin
    have hne := bne_iff_ne.mp (List.mem_filter.mp hpb).2
    have hmemb := (List.mem_filter.mp hpb).1
    by_cases hrole : pb.2.role = BindingRole.listen
    · rw [if_pos hrole] at hval
      injection hval with hval
      exact hport pb hmemb hne hrole hval
    · rw [if_neg hrole] at hval
      exact Option.noConfusion hval

/-- Witness for C4 at a registry with a busy listen binding and another
binding on a different port. -/
theorem close_removes_binding_witness :
    (busyRegistry.close "demo").2 = none ∧
    ((busyRegistry.close "demo").1.listActive.1.filter
      fun li => li.protocol == "demo") = [] ∧
    ((busyRegistry.close "demo").1.listActive.2.filter
      fun si => si.protocol == "demo") = [] ∧
    busyBinding.targetAddress.port ∉ (busyRegistry.close "demo").1.portsBound :=
  close_removes_binding busyRegistry "demo" busyBinding (by decide) (by decide)

theorem close_fst_bindings (r : Registry) (p : String) :
    ((r.close p).1).bindings = r.bindings.filter fun pb => pb.1 != p := by
  unfold Registry.close
  rcases h : r.lookup p with _ | b
  · show r.bindings = r.bindings.filter fun pb => pb.1 != p
    have hkeys := (lookup_eq_none_iff r p).mp h
    exact (List.filter_eq_self.mpr fun pb hm => bne_iff_ne.mpr (hkeys pb hm)).symm
  · rfl

theorem foldl_close_empties (K : List String) (s : Registry)
    (h : ∀ pb ∈ s.bindings, pb.1 ∈ K) :
    (K.foldl (fun t p => (t.close p).1) s).bindings = [] := by
  induction K generalizing s with
  | nil =>
    simp only [List.foldl_nil]
    exact List.eq_nil_iff_forall_not_mem.mpr fun pb hm => by simpa using h pb hm
  | cons k K ih =>
    rw [List.foldl_cons]
    apply ih
    intro pb hm
    rw [close_fst_bindings] at hm
    obtain ⟨hmem, hne⟩ := List.mem_filter.mp hm
    rcases List.mem_cons.mp (h pb hmem) with h1 | h2
    · exact absurd h1 (bne_iff_ne.mp hne)
    · exact h2

/-- C6: CloseAll closes every remaining binding, leaving the registry empty,
and is idempotent: applying it to the resulting state changes nothing. -/
theorem closeAll_empties_and_idempotent (r : Registry) :
    r.closeAll.bindings = [] ∧ r.closeAll.closeAll = r.closeAll := by
  have h1 : r.closeAll.bindings = [] := by
    unfold Registry.closeAll
    apply foldl_close_empties
    intro pb hm
    exact List.mem_map.mpr ⟨pb, hm, rfl⟩
  refine ⟨h1, ?_⟩
  show ((r.closeAll.bindings.map Prod.fst).foldl
    (fun s p => (s.close p).1) r.closeAll) = r.closeAll
  rw [h1]
  rfl

theorem find_map_keyed (l : List (String × Binding)) (p : String) (f : Binding → Binding) :
    (l.map fun pb => if pb.1 = p then (pb.1, f pb.2) else pb).find? (fun pb => pb.1 == p) =
      (l.find? fun pb => pb.1 == p).map fun pb => (pb.1, f pb.2) := by
  induction l with
  | nil => rfl
  | cons pb rest ih =>
    by_cases hp : pb.1 = p
    · rw [List.map_cons, if_pos hp]
      rw [List.find?_cons_of_pos _ (by simpa using hp),
        List.find?_cons_of_pos _ (by simpa using hp)]
      rfl
    · rw [List.map_cons, if_neg hp]
      rw [List.find?_cons_of_neg _ (by simpa using hp),
        List.find?_cons_of_neg _ (by simpa using hp)]
      exact ih

theorem find_map_keyed_other (l : List (String × Binding)) (p q : String)
    (f : Binding → Binding) (hq : q ≠ p) :
    (l.map fun pb => if pb.1 = p then (pb.1, f pb.2) else pb).find? (fun pb => pb.1 == q) =
      l.find? fun pb => pb.1 == q := by
  induction l with
  | nil => rfl
  | cons pb rest ih =>
    by_cases hp : pb.1 = p
    · have hqq : pb.1 ≠ q := fun he => hq (by rw [← he, hp])
      rw [List.map_cons, if_pos hp]
      rw [List.find?_cons_of_neg _ (by simpa using hqq),
        List.find?_cons_of_neg _ (by simpa using hqq)]
      exact ih
    · rw [List.map_cons, if_neg hp]
      by_cases hqq : pb.1 = q
      · rw [List.find?_cons_of_pos _ (by simpa using hqq),
          List.find?_cons_of_pos _ (by simpa using hqq)]
      · rw [List.find?_cons_of_neg _ (by simpa using hqq),
          List.find?_cons_of_neg _ (by simpa using hqq)]
        exact ih

theorem lookup_removeSession_self (r : Registry) (p : String) (sess : SessionInfo)
    (b : Binding) (h : r.lookup p = some b) :
    (r.removeSession p sess).lookup p = some (eraseSession sess b) := by
  unfold Registry.lookup
  show ((r.bindings.map fun pb => if pb.1 = p then
    (pb.1, eraseSession sess pb.2) else pb).find?
      (fun pb => pb.1 == p)).map (fun pb => pb.2) = _
  rw [find_map_keyed]
  unfold Registry.lookup at h
  rcases hf : r.bindings.find? (fun pb => pb.1 == p) with _ | pb
  · rw [hf] at h
    exact Option.noConfusion h
  · rw [hf] at h
    injection h with h
    have h2 : pb.2 = b := h
    rw [hf]
    show some (eraseSession sess pb.2) = some (eraseSession sess b)
    rw [h2]

theorem lookup_removeSession_other (r : Registry) (p q : String) (sess : SessionInfo)
    (hq : q ≠ p) :
    (r.removeSession p sess).lookup q = r.lookup q := by
  unfold Registry.lookup
  show ((r.bindings.map fun pb => if pb.1 = p then
    (pb.1, eraseSession sess pb.2) else pb).find?
      (fun pb => pb.1 == q)).map (fun pb => pb.2) = _
  rw [find_map_keyed_other _ p q _ hq]

/-- C8: for a live Splicer session, (i) with bytes pending in both
directions, both copy directions can make a step and the two steps commute
(independent concurrent progress); (ii) end-of-stream on the A-to-B
direction closes B for writing while the B-to-A direction is left untouched
and the session stays live; (iii) an I/O error on either direction closes
both underlying streams; and (iv) removing the terminated session from its
owning binding's active set erases exactly that session there and leaves the
binding under every other protocol, and its sessions, unchanged. -/
theorem splicer_halfclose_error_isolation (s : SplicerState)
    (ha : s.aClosed = false) (hb : s.bClosed = false)
    (r : Registry) (p : String) (b : Binding) (sess : SessionInfo)
    (h : r.lookup p = some b) :
    ((s.ab.pending ≠ [] ∧ s.ab.dstShut = false ∧
      s.ba.pending ≠ [] ∧ s.ba.dstShut = false) →
      ∃ s1 s1b s2, spliceStep s .copyAB = some s1 ∧ spliceStep s .copyBA = some s1b ∧
        spliceStep s1 .copyBA = some s2 ∧ spliceStep s1b .copyAB = some s2) ∧
    (∀ s2, spliceStep s .eofAB = some s2 →
      s2.ab.dstShut = true ∧ s2.ba = s.ba ∧ s2.aClosed = false ∧ s2.bClosed = false) ∧
    (∀ e s2, (e = SpliceEvent.errAB ∨ e = SpliceEvent.errBA) →
      spliceStep s e = some s2 → s2.aClosed = true ∧ s2.bClosed = true) ∧
    (r.removeSession p sess).lookup p =
      some { b with sessions := b.sessions.erase sess } ∧
    (∀ q, q ≠ p → (r.removeSession p sess).lookup q = r.lookup q) := by
  have hlive : (s.aClosed || s.bClosed) = false := by rw [ha, hb]; rfl
  refine ⟨?_, ?_, ?_, ?_, ?_⟩
  · rintro ⟨hab, habs, hba, hbas⟩
    rcases hA : s.ab.pending with _ | ⟨x, restA⟩
    · exact absurd hA hab
    rcases hB : s.ba.pending with _ | ⟨y, restB⟩
    · exact absurd hB hba
    refine ⟨{ s with ab := ⟨restA, s.ab.delivered ++ [x], s.ab.dstShut⟩ },
      { s with ba := ⟨restB, s.ba.delivered ++ [y], s.ba.dstShut⟩ },
      { s with ab := ⟨restA, s.ab.delivered ++ [x], s.ab.dstShut⟩,
               ba := ⟨restB, s.ba.delivered ++ [y], s.ba.dstShut⟩ }, ?_, ?_, ?_, ?_⟩ <;>
      simp [spliceStep, dirStep, ha, hb, hA, hB, habs, hbas]
  · intro s2 h2
    unfold spliceStep at h2
    rw [if_neg (by simp [hlive])] at h2
    dsimp only at h2
    split at h2
    · injection h2 with h2
      subst h2
      exact ⟨rfl, rfl, ha, hb⟩
    · exact Option.noConfusion h2
  · intro e s2 he h2
    rcases he with rfl | rfl <;>
    · unfold spliceStep at h2
      rw [if_neg (by simp [hlive])] at h2
      injection h2 with h2
      subst h2
      exact ⟨rfl, rfl⟩
  · exact lookup_removeSession_self r p sess b h
  · intro q hq
    exact lookup_removeSession_other r p q sess hq

/-- Witness for C8: the session-removal component at a registry with a busy
binding holding two sessions and a second binding, applying the theorem at a
live splicer state. -/
theorem splicer_halfclose_error_isolation_witness :
    (busyRegistry.removeSession "demo" sessA).lookup "demo" =
      some { busyBinding with sessions := busyBinding.sessions.erase sessA } :=
  (splicer_halfclose_error_isolation demoSplicer rfl rfl busyRegistry "demo"
    busyBinding sessA (by decide)).2.2.2.1

/-- C9: when argument validation fails (`--forward` without a truthy
`--peer-id`, or neither `--listen` nor `--forward`), the program exits with
status 1 with an empty action trace: no node is created and no P2P operation
is attempted. -/
theorem invalid_args_exit_before_node (a : Args) (env : Env)
    (h : (a.forward = true ∧ a.peerId = none) ∨
      (a.listen = false ∧ a.forward = false)) :
    runMain a env = ([], ExitStatus.code 1) := by
  unfold runMain
  rcases h with ⟨hf, hp⟩ | ⟨hl, hf⟩
  · rw [if_pos (by simp [hf, hp])]
  · rw [if_neg (by simp [hf]), if_pos (by simp [hl, hf])]

/-- Witness for C9 with both mode flags absent. -/
theorem invalid_args_exit_before_node_witness :
    runMain ⟨false, false, "demo", 8765, none⟩ ⟨true, true, none⟩ =
      ([], ExitStatus.code 1) :=
  invalid_args_exit_before_node ⟨false, false, "demo", 8765, none⟩
    ⟨true, true, none⟩ (Or.inr ⟨rfl, rfl⟩)

/-- C10: whenever the node is created (argument validation passed), every
run — normal completion, caught KeyboardInterrupt, an exception escaping the
try body at any point, or the sys.exit taken on a falsy listen/forward
result — ends with the finally block: `p2p.close(protocol)` is invoked and
`node.close()` follows it as the final action, so the node is never left
open. -/
theorem finally_always_cleans_up (a : Args) (env : Env)
    (hpeer : ¬(a.forward = true ∧ a.peerId.getD "" = ""))
    (hmode : a.listen = true ∨ a.forward = true) :
    ∃ pre, (runMain a env).1 =
      Event.nodeCreated :: (pre ++ [Event.p2pClose a.protocol, Event.nodeClosed]) := by
  have hc1 : (a.forward && (a.peerId.getD "" == "")) = false := by
    cases hfv : a.forward
    · simp
    · simp only [Bool.true_and]
      exact beq_eq_false_iff_ne.mpr fun he => hpeer ⟨hfv, he⟩
  have hc2 : (!a.listen && !a.forward) = false := by
    rcases hmode with hm | hm <;> simp [hm]
  have hfin : finallyEvents a = [Event.p2pClose a.protocol, Event.nodeClosed] := by
    unfold finallyEvents
    rcases hmode with hm | hm <;> simp [hm]
  unfold runMain
  rw [if_neg (by simp [hc1]), if_neg (by simp [hc2])]
  rcases hrp : env.raisePoint with _ | k
  · exact ⟨(tryBody a env).1, by simp [hfin]⟩
  · exact ⟨(tryBody a env).1.take k, by simp [hfin]⟩

/-- Witness for C10 in listen mode with an interrupt-free run. -/
theorem finally_always_cleans_up_witness :
    ∃ pre, (runMain ⟨true, false, "demo", 8765, none⟩ ⟨true, true, none⟩).1 =
      Event.nodeCreated :: (pre ++ [Event.p2pClose "demo", Event.nodeClosed]) :=
  finally_always_cleans_up ⟨true, false, "demo", 8765, none⟩ ⟨true, true, none⟩
    (by simp) (Or.inl rfl)
